import Mathlib

/-!
# Verification of the resource-booking core

A shallow embedding of the booking admission / lifecycle engine and of the
demand forecaster of the resource-booking repository, together with proofs
of the spec's testable properties.

Conventions used throughout:

* Timestamps are naturals, in milliseconds since the Unix epoch, matching
  the JavaScript `Date.getTime()` values the source manipulates.
* JavaScript `number` arithmetic on booking counts and probabilities is
  embedded as exact rational (`ℚ`) arithmetic; `Math.sqrt` and `Math.exp`
  are passed in as explicit function parameters since they are the only
  transcendental operations used.
* Fallible operations return `Except`; the error enums mirror the error
  responses the handlers produce (the zod 400 with its issue list, the
  404s, the 409 conflicts).
-/

namespace Booking

/-- Booking lifecycle states, as used by the bookings table and the
frontend (`REQUEST | ONGOING | SUCCESS | CANCEL`).  The Backers service
layer spells the two active-hold states `'PENDING'`/`'APPROVED'`; the spec
unifies the vocabulary (§4.1), naming them `REQUEST`/`ONGOING`, and this
embedding uses the unified names for both components. -/
inductive Status where
  | REQUEST
  | ONGOING
  | SUCCESS
  | CANCEL
deriving DecidableEq, Repr

/-- Resource kinds (`VEHICLE | FACILITY | EQUIPMENT`). -/
inductive Kind where
  | VEHICLE
  | FACILITY
  | EQUIPMENT
deriving DecidableEq, Repr

/-- A Backers catalog resource as the booking engine reads it: the
conflict service resolves the row by `id` and compares against
`qtyTotal` (`createResourceSchema`: `qtyTotal: z.number().int().min(1)`).
The remaining catalog columns (`name`, `description`, `location`) are
never read by the engine, and the Backers resource model has no kind or
availability-status field. -/
structure Resource where
  id : ℕ
  qtyTotal : ℤ
deriving DecidableEq, Repr

/-- A stored booking row as read by the Backers conflict service
(`resourceId`, `start`, `end`, `qty`, `status`).  The source field `end`
is a Lean keyword and is embedded as `endT`. -/
structure StoredBooking where
  resourceId : ℕ
  start : ℕ
  endT : ℕ
  qty : ℤ
  status : Status
deriving DecidableEq, Repr

/-- The half-open-interval overlap clause of `hasConflict`
(src/Backers/src/services/booking.ts): the Prisma filter
`NOT: [ \x7b end: \x7b lte: start \x7d \x7d, \x7b start: \x7b gte: end \x7d \x7d ]`,
i.e. an existing booking `[bStart, bEnd)` overlaps the requested window
`[s, e)` iff neither `bEnd ≤ s` nor `bStart ≥ e`. -/
def overlapClause (bStart bEnd s e : ℕ) : Bool :=
  !(decide (bEnd ≤ s)) && !(decide (bStart ≥ e))

/-- The validation issues `createBookingSchema`
(src/Backers/src/schemas/booking.ts) can raise on a typed payload:
`qtyMin` is the `qty: z.number().int().min(1)` field violation and
`endNotAfterStart` the object-level refinement `d.end > d.start` (zod
runs refinements only after the field-level parse succeeds).  The
remaining schema constraints — `resourceId` a non-empty string, `start`
and `end` coercible dates, `qty` an integer — are carried by the types
of the embedding. -/
inductive ZodIssue where
  | qtyMin
  | endNotAfterStart
deriving DecidableEq, Repr

/-- Errors of the Backers admission pipeline: the 400 carrying the
flattened zod issues, the 404 `Resource not found` thrown by
`hasConflict`, and the 409 `Resource not available for the requested
time/qty`. -/
inductive SubmitError where
  | ValidationError (issues : List ZodIssue)
  | ResourceNotFound
  | Conflict
deriving DecidableEq, Repr

/-- `hasConflict` from src/Backers/src/services/booking.ts: sums `qty`
over the stored bookings for the same `resourceId` in an active-hold
state (source spelling `'APPROVED'`/`'PENDING'`, spec names
`ONGOING`/`REQUEST`) whose interval overlaps `[s, e)`, resolves the
resource, throws 404 when the resource is absent, and otherwise reports
whether `totalHeld + qty > resource.qtyTotal`. -/
def hasConflict (bookings : List StoredBooking) (resources : List Resource)
    (resourceId : ℕ) (s e : ℕ) (qty : ℤ) : Except SubmitError Bool :=
  let overlapping := bookings.filter (fun b =>
    decide (b.resourceId = resourceId) &&
    (decide (b.status = Status.ONGOING) || decide (b.status = Status.REQUEST)) &&
    overlapClause b.start b.endT s e)
  let totalHeld := (overlapping.map (fun b => b.qty)).sum
  match resources.find? (fun r => decide (r.id = resourceId)) with
  | none => Except.error SubmitError.ResourceNotFound
  | some r => Except.ok (decide (totalHeld + qty > r.qtyTotal))

/-- The typed payload `createBookingSchema` accepts:
`\x7b resourceId, start, end, qty \x7d` (the optional pass-through `notes`
string is not modelled; the source field `end` is a Lean keyword and is
embedded as `endT`). -/
structure SubmitRequest where
  resourceId : ℕ
  start : ℕ
  endT : ℕ
  qty : ℤ
deriving DecidableEq, Repr

/-- The persistent state seen by the admission pipeline. -/
structure EngineState where
  resources : List Resource
  bookings : List StoredBooking
deriving DecidableEq, Repr

/-- The booking row `createBooking` inserts on successful admission:
source status `'PENDING'`, the initial state the spec names `REQUEST`. -/
def newBooking (req : SubmitRequest) : StoredBooking :=
  { resourceId := req.resourceId, start := req.start, endT := req.endT,
    qty := req.qty, status := Status.REQUEST }

/-- The issue list `createBookingSchema.safeParse` produces on a typed
payload: the `qty ≥ 1` field check fails first (zod skips the
object-level `d.end > d.start` refinement when a field-level issue
exists); with valid fields, the refinement alone can fail; otherwise the
parse succeeds with no issues. -/
def zodIssues (req : SubmitRequest) : List ZodIssue :=
  if req.qty < 1 then [ZodIssue.qtyMin]
  else if ¬ (req.start < req.endT) then [ZodIssue.endNotAfterStart]
  else []

/-- `createBooking` from the Backers bookings controller (the third
concatenated segment of src/Backers/src/controllers/auth.ts, registered
by src/Backers/src/routes/bookings.ts as `../controllers/bookings.js`):
parse the payload with `createBookingSchema`, answering 400 with the
flattened issues on failure; run the real `hasConflict`, answering 409
when it reports a conflict (its thrown 404 propagates); otherwise insert
the booking with status `'PENDING'`.  The controller performs no
resource-catalog bookability check — the Backers resource model has no
kind or status to check. -/
def createBooking (st : EngineState) (req : SubmitRequest) : Except SubmitError EngineState :=
  if zodIssues req ≠ [] then Except.error (SubmitError.ValidationError (zodIssues req))
  else match hasConflict st.bookings st.resources req.resourceId req.start req.endT req.qty with
    | Except.error err => Except.error err
    | Except.ok true => Except.error SubmitError.Conflict
    | Except.ok false =>
        Except.ok { st with bookings := st.bookings ++ [newBooking req] }

/-- The capacity demand the spec's conflict rule (§4.1 step 4) speaks
about: the sum of `requestedQuantity` over existing bookings for the same
resource whose status is in `\x7bREQUEST, ONGOING\x7d` and whose interval
overlaps `[s, e)` under half-open semantics, written with the spec's
formula `NOT (e ≤ existingStart … )` rather than the code's filter. -/
def activeOverlapSum (bookings : List StoredBooking) (resourceId s e : ℕ) : ℤ :=
  ((bookings.filter (fun b =>
      decide (b.resourceId = resourceId) &&
      (decide (b.status = Status.REQUEST) || decide (b.status = Status.ONGOING)) &&
      decide (¬ (b.endT ≤ s ∨ b.start ≥ e)))).map (fun b => b.qty)).sum

/-- A bookings-table row of the live express backend, as created by
`POST /api/bookings` and mutated by the three transition endpoints
(columns `id, kind, resource_id, start_dt, end_dt, quantity, status,
started_at, ended_at, canceled_at, updated_at`; the free-text columns
`resource_name, requester_name, requester_role, purpose` are
pass-through and not modelled). -/
structure Row where
  id : ℕ
  kind : Kind
  resource_id : ℕ
  start_dt : ℕ
  end_dt : ℕ
  quantity : Option ℤ
  status : Status
  started_at : Option ℕ
  ended_at : Option ℕ
  canceled_at : Option ℕ
  updated_at : ℕ
deriving DecidableEq, Repr

/-- Error surface of the live transition endpoints: the only failure they
produce is 404 `Not found` (when no row matches the id). -/
inductive ApiError where
  | NotFound
deriving DecidableEq, Repr

/-- `POST /api/bookings/:id/start` of the live express backend: the
unconditional single-row update
`UPDATE bookings SET status='ONGOING', started_at=NOW(), updated_at=NOW()
WHERE id=$1 RETURNING *`; 404 when no row matched, otherwise the updated
row is returned together with the new table contents.  Note the `WHERE`
clause matches on `id` alone — there is no current-status precondition. -/
def startEndpoint (db : List Row) (bid : ℕ) (now : ℕ) :
    Except ApiError (Row × List Row) :=
  let db2 := db.map (fun b =>
    if b.id = bid then
      { b with status := Status.ONGOING, started_at := some now, updated_at := now }
    else b)
  match db2.find? (fun b => decide (b.id = bid)) with
  | none => Except.error ApiError.NotFound
  | some row => Except.ok (row, db2)

/-- `POST /api/bookings/:id/finish` of the live express backend:
`UPDATE bookings SET status='SUCCESS', ended_at=NOW(), updated_at=NOW()
WHERE id=$1 RETURNING *`, again with no current-status precondition. -/
def finishEndpoint (db : List Row) (bid : ℕ) (now : ℕ) :
    Except ApiError (Row × List Row) :=
  let db2 := db.map (fun b =>
    if b.id = bid then
      { b with status := Status.SUCCESS, ended_at := some now, updated_at := now }
    else b)
  match db2.find? (fun b => decide (b.id = bid)) with
  | none => Except.error ApiError.NotFound
  | some row => Except.ok (row, db2)

/-- `POST /api/bookings/:id/cancel` of the live express backend:
`UPDATE bookings SET status='CANCEL', canceled_at=NOW(), updated_at=NOW()
WHERE id=$1 RETURNING *`, with no current-status precondition. -/
def cancelEndpoint (db : List Row) (bid : ℕ) (now : ℕ) :
    Except ApiError (Row × List Row) :=
  let db2 := db.map (fun b =>
    if b.id = bid then
      { b with status := Status.CANCEL, canceled_at := some now, updated_at := now }
    else b)
  match db2.find? (fun b => decide (b.id = bid)) with
  | none => Except.error ApiError.NotFound
  | some row => Except.ok (row, db2)

/-- The Prisma where-filter of `hasConflict` selects exactly the bookings
described by the spec's conflict rule: same resource, active status, and
half-open overlap written as `NOT (end ≤ existingStart OR start ≥
existingEnd)`. -/
lemma conflictFilter_eq (bookings : List StoredBooking) (rid s e : ℕ) :
    bookings.filter (fun b =>
      decide (b.resourceId = rid) &&
      (decide (b.status = Status.ONGOING) || decide (b.status = Status.REQUEST)) &&
      overlapClause b.start b.endT s e) =
    bookings.filter (fun b =>
      decide (b.resourceId = rid) &&
      (decide (b.status = Status.REQUEST) || decide (b.status = Status.ONGOING)) &&
      decide (¬ (b.endT ≤ s ∨ b.start ≥ e))) := by
  apply List.filter_congr
  intro b _
  rw [Bool.eq_iff_iff]
  cases hst : b.status <;> simp [overlapClause, not_or]

/-- With a payload that passes `createBookingSchema` and a resolvable
resource, `createBooking` reduces to the capacity comparison of the
conflict rule. -/
lemma createBooking_eval (st : EngineState) (req : SubmitRequest) (r : Resource)
    (hq : 1 ≤ req.qty) (ht : req.start < req.endT)
    (hr : st.resources.find? (fun x => decide (x.id = req.resourceId)) = some r) :
    createBooking st req =
      (if r.qtyTotal <
          activeOverlapSum st.bookings req.resourceId req.start req.endT + req.qty
       then Except.error SubmitError.Conflict
       else Except.ok { st with bookings := st.bookings ++ [newBooking req] }) := by
  have hz : zodIssues req = [] := by
    unfold zodIssues
    rw [if_neg (show ¬ req.qty < 1 by omega), if_neg (not_not_intro ht)]
  unfold createBooking hasConflict
  rw [if_neg (show ¬ zodIssues req ≠ [] by simp [hz])]
  simp only [hr]
  rw [conflictFilter_eq st.bookings req.resourceId req.start req.endT]
  by_cases hX : r.qtyTotal <
      activeOverlapSum st.bookings req.resourceId req.start req.endT + req.qty
  · rw [if_pos hX]
    have : decide (((st.bookings.filter (fun b =>
        decide (b.resourceId = req.resourceId) &&
        (decide (b.status = Status.REQUEST) || decide (b.status = Status.ONGOING)) &&
        decide (¬ (b.endT ≤ req.start ∨ b.start ≥ req.endT)))).map (fun b => b.qty)).sum
          + req.qty > r.qtyTotal) = true := by
      simpa [activeOverlapSum] using hX
    rw [this]
  · rw [if_neg hX]
    have : decide (((st.bookings.filter (fun b =>
        decide (b.resourceId = req.resourceId) &&
        (decide (b.status = Status.REQUEST) || decide (b.status = Status.ONGOING)) &&
        decide (¬ (b.endT ≤ req.start ∨ b.start ≥ req.endT)))).map (fun b => b.qty)).sum
          + req.qty > r.qtyTotal) = false := by
      simpa [activeOverlapSum] using hX
    rw [this]

/-- The totalQuantity-1 resource of the spec's scenario A. -/
def resCap1 : Resource := { id := 7, qtyTotal := 1 }

/-- Scenario A's admitted booking `B1` over `[10:00, 11:00)` (times in
minutes of the day). -/
def bookingB1 : StoredBooking :=
  { resourceId := 7, start := 600, endT := 660, qty := 1, status := Status.REQUEST }

/-- Engine state for scenario A. -/
def stateA : EngineState := { resources := [resCap1], bookings := [bookingB1] }

/-- Scenario A's overlapping submission `B2` over `[10:30, 11:30)`. -/
def reqB2 : SubmitRequest :=
  { resourceId := 7, start := 630, endT := 690, qty := 1 }

/-- Scenario A's adjacent submission `B3` over `[11:00, 12:00)`. -/
def reqB3 : SubmitRequest :=
  { resourceId := 7, start := 660, endT := 720, qty := 1 }

/-- The totalQuantity-10 equipment resource of the spec's scenario C. -/
def resEquip : Resource := { id := 3, qtyTotal := 10 }

/-- Scenario C's existing active hold: quantity 6 over Monday 9–10
(times in minutes of the day). -/
def bookingQ6 : StoredBooking :=
  { resourceId := 3, start := 540, endT := 600, qty := 6, status := Status.ONGOING }

/-- Engine state for scenario C. -/
def stateC : EngineState := { resources := [resEquip], bookings := [bookingQ6] }

/-- Scenario C's quantity-5 submission over the overlapping window
Monday 9:30–10:30. -/
def reqC5 : SubmitRequest :=
  { resourceId := 3, start := 570, endT := 630, qty := 5 }

/-- Scenario C's quantity-4 submission over the same window. -/
def reqC4 : SubmitRequest :=
  { resourceId := 3, start := 570, endT := 630, qty := 4 }

/-- Both admission paths read a booking row's key fields only through
the conflict query; a resolvable resource makes `createBooking`'s outcome
the capacity comparison (helper shared by the admission theorems). -/
lemma createBooking_eval_none (st : EngineState) (req : SubmitRequest)
    (hq : 1 ≤ req.qty) (ht : req.start < req.endT)
    (hnone : st.resources.find? (fun x => decide (x.id = req.resourceId)) = none) :
    createBooking st req = Except.error SubmitError.ResourceNotFound := by
  have hz : zodIssues req = [] := by
    unfold zodIssues
    rw [if_neg (show ¬ req.qty < 1 by omega), if_neg (not_not_intro ht)]
  have hcf : hasConflict st.bookings st.resources req.resourceId req.start req.endT req.qty
      = Except.error SubmitError.ResourceNotFound := by
    unfold hasConflict
    rw [hnone]
  unfold createBooking
  rw [if_neg (show ¬ zodIssues req ≠ [] by simp [hz]), hcf]

/-- C1: writing `Q` for the sum of `requestedQuantity` over the existing
active (`REQUEST`/`ONGOING`, source `'PENDING'`/`'APPROVED'`) bookings of
the same resource whose interval overlaps the requested half-open window,
a schema-valid quantity-`q` submission against a resolvable resource
fails with `Conflict` when `Q + q > totalQuantity` and is admitted —
appended in the initial state (`'PENDING'`, the spec's `REQUEST`) — when
`Q + q ≤ totalQuantity`; in particular, against a totalQuantity-10
resource holding an overlapping quantity-6 booking, a quantity-5 request
is rejected and a quantity-4 request succeeds. -/
theorem createBooking_capacity_rule (st : EngineState) (req : SubmitRequest) (r : Resource)
    (hq : 1 ≤ req.qty) (ht : req.start < req.endT)
    (hr : st.resources.find? (fun x => decide (x.id = req.resourceId)) = some r) :
    (r.qtyTotal < activeOverlapSum st.bookings req.resourceId req.start req.endT + req.qty →
       createBooking st req = Except.error SubmitError.Conflict) ∧
    (activeOverlapSum st.bookings req.resourceId req.start req.endT + req.qty ≤ r.qtyTotal →
       createBooking st req =
         Except.ok { st with bookings := st.bookings ++ [newBooking req] } ∧
       (newBooking req).status = Status.REQUEST) ∧
    createBooking stateC reqC5 = Except.error SubmitError.Conflict ∧
    createBooking stateC reqC4 =
      Except.ok { stateC with bookings := stateC.bookings ++ [newBooking reqC4] } := by
  refine ⟨?_, ?_, ?_, ?_⟩
  · intro hover
    rw [createBooking_eval st req r hq ht hr, if_pos hover]
  · intro hunder
    exact ⟨by rw [createBooking_eval st req r hq ht hr, if_neg (by omega)], rfl⟩
  · rfl
  · rfl

/-- Witness for C1: applying the capacity rule to scenario C's concrete
state shows the quantity-4 request admitted. -/
theorem createBooking_capacity_rule_witness :
    activeOverlapSum stateC.bookings reqC4.resourceId reqC4.start reqC4.endT + reqC4.qty ≤
      resEquip.qtyTotal ∧
    createBooking stateC reqC4 =
      Except.ok { stateC with bookings := stateC.bookings ++ [newBooking reqC4] } := by
  have h := createBooking_capacity_rule stateC reqC4 resEquip (by decide) (by decide) rfl
  exact ⟨by decide, (h.2.1 (by decide)).1⟩

/-- C5: a submission with quantity < 1 fails with the 400 validation
error whose flattened issue list flags exactly the `qty ≥ 1` minimum —
the spec's `InvalidQuantity`, distinguishable from a time-range failure
by the issue — and nothing is inserted; zod skips the `end > start`
refinement in that case, so no time-window hypothesis is needed.  A
quantity-valid, well-formed submission proceeds past validation to the
resource and conflict checks: its outcome is the 404, the 409, or an
admission, never a validation error. -/
theorem createBooking_validates_quantity (st : EngineState) (req : SubmitRequest) :
    (req.qty < 1 →
       createBooking st req =
         Except.error (SubmitError.ValidationError [ZodIssue.qtyMin])) ∧
    (1 ≤ req.qty → req.start < req.endT →
       createBooking st req = Except.error SubmitError.ResourceNotFound ∨
       createBooking st req = Except.error SubmitError.Conflict ∨
       ∃ st2, createBooking st req = Except.ok st2) := by
  constructor
  · intro hlt
    have hz : zodIssues req = [ZodIssue.qtyMin] := by
      unfold zodIssues
      rw [if_pos hlt]
    unfold createBooking
    rw [if_pos (by simp [hz]), hz]
  · intro hq ht
    cases hfind : st.resources.find? (fun x => decide (x.id = req.resourceId)) with
    | none =>
      left
      exact createBooking_eval_none st req hq ht hfind
    | some r =>
      rw [createBooking_eval st req r hq ht hfind]
      by_cases hX : r.qtyTotal <
          activeOverlapSum st.bookings req.resourceId req.start req.endT + req.qty
      · right; left; rw [if_pos hX]
      · right; right; exact ⟨_, by rw [if_neg hX]⟩

/-- A quantity-0 submission over scenario A's window. -/
def reqQty0 : SubmitRequest :=
  { resourceId := 7, start := 600, endT := 660, qty := 0 }

/-- Witness for C5: a quantity-0 request over scenario A's state fails
with the validation error flagging the quantity minimum. -/
theorem createBooking_validates_quantity_witness :
    createBooking stateA reqQty0 =
      Except.error (SubmitError.ValidationError [ZodIssue.qtyMin]) := by
  exact (createBooking_validates_quantity stateA reqQty0).1 (by decide)

end Booking

namespace Forecast

open Booking

/-- Milliseconds per day. -/
def msPerDay : ℕ := 86400000

/-- The UTC calendar-day index of a timestamp: the embedding of the
`isoDateOnly` date-string key of src/src/lib/forecast.ts (the map from a
UTC instant to its `YYYY-MM-DD` key is in bijection with the day number
since the epoch). -/
def dayIdx (t : ℕ) : ℕ := t / msPerDay

/-- The UTC day of week of a day index (`Date.getUTCDay`): day 0
(1970-01-01) was a Thursday (= 4). -/
def weekday (d : ℕ) : ℕ := (d + 4) % 7

/-- JavaScript `Map.set` on an insertion-ordered association list:
overwrite in place when the key is present, append otherwise. -/
def mapSet (m : List (ℕ × ℚ)) (k : ℕ) (v : ℚ) : List (ℕ × ℚ) :=
  if m.any (fun p => decide (p.1 = k)) then
    m.map (fun p => if p.1 = k then (k, v) else p)
  else m ++ [(k, v)]

/-- JavaScript `Map.get` on the association list. -/
def mapGet (m : List (ℕ × ℚ)) (k : ℕ) : Option ℚ :=
  (m.find? (fun p => decide (p.1 = k))).map Prod.snd

/-- A booking as consumed by the forecaster (frontend `Booking` type):
only `start_dt`, `quantity` and `status` are read.  The source's guards
against a missing or unparsable `start_dt` have no counterpart because
the embedded field is already a timestamp. -/
structure FBooking where
  start_dt : ℕ
  quantity : Option ℤ
  status : Status
deriving DecidableEq, Repr

/-- The per-booking bucket increment of `generateBusyDayForecast`
(line 80): `typeof quantity === "number" && quantity > 0 ? quantity : 1`. -/
def increment (q : Option ℤ) : ℚ :=
  match q with
  | some n => if 0 < n then (n : ℚ) else 1
  | none => 1

/-- The day-bucketing loop of `generateBusyDayForecast` (lines 70–82):
skip `CANCEL` bookings, skip bookings whose start instant is strictly
after today's UTC midnight (`start.getTime() > today.getTime()` with
`today.setUTCHours(0,0,0,0)`), and accumulate the increment into the
bucket keyed by the booking's UTC calendar day. -/
def countsByDay (bookings : List FBooking) (todayMid : ℕ) : List (ℕ × ℚ) :=
  bookings.foldl (fun m b =>
    if b.status = Status.CANCEL then m
    else if todayMid < b.start_dt then m
    else
      let k := dayIdx b.start_dt
      mapSet m k (((mapGet m k).getD 0) + increment b.quantity)) []

/-- `mean` from src/src/lib/forecast.ts. -/
def mean (values : List ℚ) : ℚ :=
  if values = [] then 0 else values.sum / (values.length : ℚ)

/-- `standardDeviation` from src/src/lib/forecast.ts, with `Math.sqrt`
passed in as the explicit parameter `sqrtF`. -/
def standardDeviation (sqrtF : ℚ → ℚ) (values : List ℚ) (avg : ℚ) : ℚ :=
  if values = [] then 0
  else sqrtF (((values.map (fun v => (v - avg) * (v - avg))).sum) / (values.length : ℚ))

/-- The inner loop of `exponentialMovingAverage`: starting from the
running value `e`, emit `a * v + (1 - a) * e` for each remaining input,
threading the result. -/
def emaLoop (a : ℚ) (e : ℚ) : List ℚ → List ℚ
  | [] => []
  | v :: vs =>
    let e2 := a * v + (1 - a) * e
    e2 :: emaLoop a e2 vs

/-- `exponentialMovingAverage` from src/src/lib/forecast.ts: empty input
gives an empty output; otherwise α is clamped to [0,1], the first output
is the first value, and each further output follows the EMA recurrence. -/
def exponentialMovingAverage (values : List ℚ) (alpha : ℚ) : List ℚ :=
  match values with
  | [] => []
  | v :: vs => v :: emaLoop (max 0 (min 1 alpha)) v vs

/-- `getWeekdayAverages` from src/src/lib/forecast.ts: accumulate totals
and occurrence counts per day of week over the bucket entries, yielding
the average where occurrences exist.  The source marks an empty weekday
with `NaN` and later tests `Number.isFinite`; the embedding uses `none`
for that marker.  (The source's guard against an unparsable key never
fires: every key was produced by `isoDateOnly`.) -/
def getWeekdayAverages (counts : List (ℕ × ℚ)) : ℕ → Option ℚ :=
  let acc := counts.foldl
    (fun (tp : (ℕ → ℚ) × (ℕ → ℕ)) p =>
      let w := weekday p.1
      (fun i => if i = w then tp.1 i + p.2 else tp.1 i,
       fun i => if i = w then tp.2 i + 1 else tp.2 i))
    (fun _ => 0, fun _ => 0)
  fun w => if 0 < acc.2 w then some (acc.1 w / (acc.2 w : ℚ)) else none

/-- Busy/quiet labels. -/
inductive BusyDayLabel where
  | BUSY
  | NORMAL
  | QUIET
deriving DecidableEq, Repr

/-- The raw busy probability of a forecast day (lines 117–124 of
src/src/lib/forecast.ts), with `Math.exp` as the parameter `expF`:
degenerate branch when the overall standard deviation is zero, logistic
of the z-score otherwise (the source's `overallStd || 1` guard is kept). -/
def busyProbabilityRaw (expF : ℚ → ℚ) (overallMean overallStd expected : ℚ) : ℚ :=
  let threshold := overallMean + overallStd * 0.5
  if overallStd = 0 then
    (if overallMean < expected then 0.65
     else if overallMean = 0 ∧ expected = 0 then 0.2
     else 0.45)
  else
    let zScore := (expected - threshold) / (if overallStd = 0 then 1 else overallStd)
    1 / (1 + expF (-zScore))

/-- Line 126: `Math.max(0, Math.min(1, busyProbability))`. -/
def clip01 (p : ℚ) : ℚ := max 0 (min 1 p)

/-- Lines 127–132: `BUSY` when the clipped probability is ≥ 0.6, `QUIET`
when ≤ 0.4, `NORMAL` otherwise. -/
def labelOf (p : ℚ) : BusyDayLabel :=
  if 0.6 ≤ p then BusyDayLabel.BUSY
  else if p ≤ 0.4 then BusyDayLabel.QUIET
  else BusyDayLabel.NORMAL

/-- `Number(x.toFixed(2))`: round to two decimal places. -/
def round2 (q : ℚ) : ℚ := (round (q * 100) : ℤ) / 100

/-- `Number(x.toFixed(3))`: round to three decimal places. -/
def round3 (q : ℚ) : ℚ := (round (q * 1000) : ℤ) / 1000

/-- One emitted forecast point (frontend `BusyDayForecastPoint`); `date`
is the UTC day index standing for the `YYYY-MM-DD` string. -/
structure BusyDayForecastPoint where
  date : ℕ
  expectedBookings : ℚ
  busyProbability : ℚ
  label : BusyDayLabel
deriving DecidableEq, Repr

/-- The forecast result record (frontend `BusyDayForecast`);
`generated_at` is the instant standing for the `toISOString` timestamp. -/
structure BusyDayForecast where
  generated_at : ℕ
  horizon_days : ℕ
  model : String
  points : List BusyDayForecastPoint
  notes : String
  usingFallback : Bool
deriving DecidableEq, Repr

/-- The options object of `generateBusyDayForecast`; a `none` field means
the caller omitted it and the source default applies (14 / 3 / 0.3).
`smoothWindow` is accepted but never read by the source. -/
structure ForecastOptions where
  horizonDays : Option ℕ
  smoothWindow : Option ℕ
  smoothingFactor : Option ℚ
deriving DecidableEq, Repr

/-- Lookup of the smoothed-by-date map at a possibly-negative day index
(the 7-day lookback `isoDateOnly(new Date(future - 7*24*60*60*1000))`
can name a pre-epoch date, which matches no stored key). -/
def smoothedLookup (m : List (ℕ × ℚ)) (k : ℤ) : Option ℚ :=
  (m.find? (fun p => decide ((p.1 : ℤ) = k))).map Prod.snd

/-- The forecast-point loop body of `generateBusyDayForecast`
(lines 98–140) for offset `i` from today: weekday baseline (falling back
to the overall mean), optional blend with the smoothed value of the date
7 days earlier, probability, clipping, labelling and rounding. -/
def forecastPoint (expF : ℚ → ℚ) (overallMean overallStd : ℚ)
    (weekdayAverage : ℕ → Option ℚ) (smoothedByDate : List (ℕ × ℚ))
    (todayDay : ℕ) (i : ℕ) : BusyDayForecastPoint :=
  let fday := todayDay + i
  let w := weekday fday
  let baseline0 : ℚ :=
    match weekdayAverage w with
    | some m => m
    | none => overallMean
  let baseline : ℚ :=
    if smoothedByDate.length > 0 then
      match smoothedLookup smoothedByDate ((fday : ℤ) - 7) with
      | some s => baseline0 * 0.4 + s * 0.6
      | none => baseline0
    else baseline0
  let expectedBookings := baseline
  let clippedProbability := clip01 (busyProbabilityRaw expF overallMean overallStd expectedBookings)
  { date := fday,
    expectedBookings := round2 expectedBookings,
    busyProbability := round3 clippedProbability,
    label := labelOf clippedProbability }

/-- The body of `generateBusyDayForecast` once today's UTC midnight
`todayMid` has been taken from the clock: bucket the history, compute the
overall mean and (population) standard deviation, the weekday averages,
the EMA over the chronologically sorted bucket values indexed by date,
and one forecast point per horizon day; `nowEnd` is the second clock read
used for the `generated_at` stamp. -/
def generateCore (sqrtF expF : ℚ → ℚ) (bookings : List FBooking)
    (options : ForecastOptions) (todayMid : ℕ) (nowEnd : ℕ) : BusyDayForecast :=
  let horizonDays := options.horizonDays.getD 14
  let smoothingFactor := options.smoothingFactor.getD 0.3
  let counts := countsByDay bookings todayMid
  let historicalCounts := counts.map Prod.snd
  let overallMean := mean historicalCounts
  let overallStd := standardDeviation sqrtF historicalCounts overallMean
  let weekdayAverage := getWeekdayAverages counts
  let sortedHistoricalDates := (counts.map Prod.fst).mergeSort (fun a b => decide (a ≤ b))
  let sortedCounts := sortedHistoricalDates.map (fun d => (mapGet counts d).getD 0)
  let smoothedCounts := exponentialMovingAverage sortedCounts smoothingFactor
  let smoothedByDate := sortedHistoricalDates.zip smoothedCounts
  let todayDay := dayIdx todayMid
  let points := (List.range horizonDays).map
    (fun j => forecastPoint expF overallMean overallStd weekdayAverage smoothedByDate todayDay (j + 1))
  { generated_at := nowEnd,
    horizon_days := horizonDays,
    model := "weekday-ema",
    points := points,
    notes := "Generated locally from booking history via exponential moving averages.",
    usingFallback := true }

/-- `generateBusyDayForecast` from src/src/lib/forecast.ts.  The source
reads the ambient clock twice: `new Date()` at entry (truncated to UTC
midnight via `setUTCHours(0,0,0,0)` to obtain `today`) and `new Date()`
at the end for the `generated_at` stamp; the embedding makes the two
reads the explicit parameters `now` and `nowEnd`. -/
def generateBusyDayForecast (sqrtF expF : ℚ → ℚ) (bookings : List FBooking)
    (options : ForecastOptions) (now : ℕ) (nowEnd : ℕ) : BusyDayForecast :=
  generateCore sqrtF expF bookings options ((now / msPerDay) * msPerDay) nowEnd

/-- Updating a key and reading it back yields the written value. -/
lemma mapGet_set_eq (m : List (ℕ × ℚ)) (k : ℕ) (v : ℚ) :
    mapGet (mapSet m k v) k = some v := by
  unfold mapSet mapGet
  by_cases h : m.any (fun p => decide (p.1 = k))
  · rw [if_pos h]
    induction m with
    | nil => simp at h
    | cons p t ih =>
      by_cases hp : p.1 = k
      · simp [List.find?, hp]
      · have ht : t.any (fun p => decide (p.1 = k)) := by
          simpa [List.any_cons, hp] using h
        simpa [List.find?, hp] using ih ht
  · rw [if_neg h]
    have hnone : m.find? (fun p => decide (p.1 = k)) = none := by
      rw [List.find?_eq_none]
      intro p hp
      simp only [List.any_eq_true] at h
      push_neg at h
      simpa using h p hp
    rw [List.find?_append, hnone]
    simp [List.find?]

/-- The in-place overwrite of key `k` never touches what a search for a
different key `k'` finds. -/
lemma find_map_ne (t : List (ℕ × ℚ)) (k k' : ℕ) (v : ℚ) (h : k' ≠ k) :
    (t.map (fun q => if q.1 = k then (k, v) else q)).find? (fun p => decide (p.1 = k')) =
      t.find? (fun p => decide (p.1 = k')) := by
  induction t with
  | nil => rfl
  | cons q t ih =>
    by_cases hq : q.1 = k
    · have h1 : ¬ ((k, v).1 = k') := by simpa using Ne.symm h
      have h2 : ¬ (q.1 = k') := by rw [hq]; exact Ne.symm h
      simpa [List.find?, hq, h1, h2] using ih
    · by_cases hq' : q.1 = k'
      · simp [List.find?, hq, hq', h]
      · simpa [List.find?, hq, hq'] using ih

/-- Updating one key leaves every other key's lookup unchanged. -/
lemma mapGet_set_ne (m : List (ℕ × ℚ)) (k k' : ℕ) (v : ℚ) (h : k' ≠ k) :
    mapGet (mapSet m k v) k' = mapGet m k' := by
  unfold mapSet mapGet
  by_cases hany : m.any (fun p => decide (p.1 = k))
  · rw [if_pos hany, find_map_ne m k k' v h]
  · rw [if_neg hany]
    rw [List.find?_append]
    have : [(k, v)].find? (fun p => decide (p.1 = k')) = none := by
      simp [List.find?, Ne.symm h]
    cases hm : m.find? (fun p => decide (p.1 = k')) with
    | none => simp [this]
    | some q => simp

/-- The history-retention test of the bucketing loop for day `d`: not
cancelled, start instant no later than today's UTC midnight, and starting
on calendar day `d`. -/
def keptOn (todayMid d : ℕ) (b : FBooking) : Bool :=
  decide (b.status ≠ Status.CANCEL) && decide (b.start_dt ≤ todayMid) &&
    decide (dayIdx b.start_dt = d)

/-- The bucketing fold, read at one key, accumulates exactly the
increments of the retained bookings of that day on top of the incoming
map. -/
lemma countsFold_getD (todayMid d : ℕ) (bs : List FBooking) :
    ∀ m : List (ℕ × ℚ),
      mapGet (bs.foldl (fun m b =>
        if b.status = Status.CANCEL then m
        else if todayMid < b.start_dt then m
        else
          let k := dayIdx b.start_dt
          mapSet m k (((mapGet m k).getD 0) + increment b.quantity)) m) d =
      (if bs.filter (keptOn todayMid d) = [] then mapGet m d
       else some ((mapGet m d).getD 0 +
         ((bs.filter (keptOn todayMid d)).map (fun b => increment b.quantity)).sum)) := by
  induction bs with
  | nil => intro m; simp
  | cons b t ih =>
    intro m
    by_cases hc : b.status = Status.CANCEL
    · have hk : keptOn todayMid d b = false := by simp [keptOn, hc]
      simpa [List.foldl_cons, hc, List.filter_cons, hk] using ih m
    · by_cases hfut : todayMid < b.start_dt
      · have hk : keptOn todayMid d b = false := by
          simp [keptOn, hc, show ¬ b.start_dt ≤ todayMid by omega]
        simpa [List.foldl_cons, hc, hfut, List.filter_cons, hk] using ih m
      · by_cases hd : dayIdx b.start_dt = d
        · have hk : keptOn todayMid d b = true := by
            simp [keptOn, hc, show b.start_dt ≤ todayMid by omega, hd]
          have hstep := ih (mapSet m (dayIdx b.start_dt)
            (((mapGet m (dayIdx b.start_dt)).getD 0) + increment b.quantity))
          rw [List.foldl_cons, if_neg hc, if_neg hfut] at *
          rw [hstep, List.filter_cons, hk]
          rw [hd, mapGet_set_eq]
          by_cases hrest : t.filter (keptOn todayMid d) = []
          · simp [hrest]
          · simp only [hrest, if_neg (by simp [hrest] : ¬ (b :: t.filter (keptOn todayMid d)) = [])]
            simp [Option.getD, add_assoc]
        · have hk : keptOn todayMid d b = false := by simp [keptOn, hd]
          have hstep := ih (mapSet m (dayIdx b.start_dt)
            (((mapGet m (dayIdx b.start_dt)).getD 0) + increment b.quantity))
          rw [List.foldl_cons, if_neg hc, if_neg hfut]
          rw [hstep, List.filter_cons, hk]
          rw [mapGet_set_ne m (dayIdx b.start_dt) d _ (fun hdd => hd hdd.symm)]
          simp

/-- The bucket increment is `max(quantity, 1)`, with a missing quantity
reading as 1. -/
lemma increment_eq_max (q : Option ℤ) :
    increment q = ((max (q.getD 1) 1 : ℤ) : ℚ) := by
  cases q with
  | none => simp [increment]
  | some n =>
    by_cases hn : 0 < n
    · have : max n 1 = n := by omega
      simp [increment, hn, this]
    · have : max n 1 = 1 := by omega
      simp [increment, hn, this]

/-- C7 (amended): the bucket the forecaster's history loop builds for a
calendar day `d` is the sum of `max(quantity, 1)` over the bookings that
are not cancelled, start on day `d`, and whose start *instant* is at most
today's UTC midnight — i.e. the loop also excludes bookings later on the
current day, not only those dated strictly in the future. -/
theorem countsByDay_buckets (bookings : List FBooking) (todayMid d : ℕ) :
    mapGet (countsByDay bookings todayMid) d =
      (if bookings.filter (keptOn todayMid d) = [] then none
       else some (((bookings.filter (keptOn todayMid d)).map
         (fun b => ((max (b.quantity.getD 1) 1 : ℤ) : ℚ))).sum)) := by
  have h := countsFold_getD todayMid d bookings []
  unfold countsByDay
  rw [h]
  by_cases hrest : bookings.filter (keptOn todayMid d) = []
  · simp [hrest, mapGet]
  · simp only [hrest, if_neg hrest, mapGet, List.find?, Option.map_none', Option.getD_none,
      zero_add, if_neg hrest]
    congr 1
    · simp [increment_eq_max]

/-- The day bucket of the C7 claim read literally: group by UTC calendar
date of the start time, exclude cancelled bookings and those whose *date*
is strictly in the future relative to today, and sum `max(quantity, 1)`. -/
def claimedBucket (bookings : List FBooking) (todayDay d : ℕ) : Option ℚ :=
  let kept := bookings.filter (fun b =>
    decide (b.status ≠ Status.CANCEL) && decide (dayIdx b.start_dt ≤ todayDay) &&
      decide (dayIdx b.start_dt = d))
  if kept = [] then none
  else some ((kept.map (fun b => ((max (b.quantity.getD 1) 1 : ℤ) : ℚ))).sum)

/-- A quantity-2 booking starting at 01:00 UTC on day 10, with day 10
taken as "today". -/
def bNoonToday : FBooking :=
  { start_dt := 10 * msPerDay + 3600000, quantity := some 2, status := Status.REQUEST }

/-- Counterexample for C7 as stated: a booking starting later today is
dated today — not strictly in the future — so the claim's bucketing puts
its quantity in today's bucket, but the code's instant-based cutoff
(`start.getTime() > today.getTime()`) drops it, leaving the bucket
absent. -/
theorem countsByDay_counterexample :
    claimedBucket [bNoonToday] (dayIdx (10 * msPerDay)) 10 = some 2 ∧
    mapGet (countsByDay [bNoonToday] (10 * msPerDay)) 10 = none ∧
    mapGet (countsByDay [bNoonToday] (10 * msPerDay)) 10 ≠
      claimedBucket [bNoonToday] (dayIdx (10 * msPerDay)) 10 := by
  have h1 : claimedBucket [bNoonToday] (dayIdx (10 * msPerDay)) 10 = some 2 := by
    have hfil : [bNoonToday].filter (fun b =>
        decide (b.status ≠ Status.CANCEL) &&
          decide (dayIdx b.start_dt ≤ dayIdx (10 * msPerDay)) &&
          decide (dayIdx b.start_dt = 10)) = [bNoonToday] := by decide
    unfold claimedBucket
    rw [hfil]
    norm_num [bNoonToday]
  have h2 : mapGet (countsByDay [bNoonToday] (10 * msPerDay)) 10 = none := by decide
  refine ⟨h1, h2, ?_⟩
  rw [h1, h2]
  simp

/-- The EMA loop emits one value per input. -/
lemma emaLoop_length (a : ℚ) (e : ℚ) (l : List ℚ) :
    (emaLoop a e l).length = l.length := by
  induction l generalizing e with
  | nil => rfl
  | cons v vs ih => simp [emaLoop, ih]

/-- Each value the EMA loop emits is `a * input + (1 - a) * previous`,
where `previous` is read off the output list shifted by the seed. -/
lemma emaLoop_getD (l : List ℚ) (a : ℚ) :
    ∀ (e : ℚ) (j : ℕ), j < l.length →
      (emaLoop a e l).getD j 0 =
        a * l.getD j 0 + (1 - a) * ((e :: emaLoop a e l).getD j 0) := by
  induction l with
  | nil => intro e j hj; simp at hj
  | cons v vs ih =>
    intro e j hj
    cases j with
    | zero => simp [emaLoop]
    | succ k =>
      have hk : k < vs.length := by simpa using hj
      simpa [emaLoop] using ih (a * v + (1 - a) * e) k hk

/-- With α already in `[0, 1]`, the source's clamp is the identity. -/
lemma safeAlpha_eq {a : ℚ} (h0 : 0 ≤ a) (h1 : a ≤ 1) :
    max 0 (min 1 a) = a := by
  rw [min_eq_right h1, max_eq_right h0]

/-- C8: for every non-empty value list and smoothing factor α ∈ [0, 1],
the smoothed series has exactly one entry per input value, starts with
`ema[0] = value[0]`, and satisfies
`ema[i] = α·value[i] + (1-α)·ema[i-1]` for every `i ≥ 1`. -/
theorem ema_recurrence (values : List ℚ) (alpha : ℚ) (hne : values ≠ [])
    (h0 : 0 ≤ alpha) (h1 : alpha ≤ 1) :
    (exponentialMovingAverage values alpha).length = values.length ∧
    (exponentialMovingAverage values alpha).getD 0 0 = values.getD 0 0 ∧
    (∀ i, 1 ≤ i → i < values.length →
      (exponentialMovingAverage values alpha).getD i 0 =
        alpha * values.getD i 0 +
          (1 - alpha) * ((exponentialMovingAverage values alpha).getD (i - 1) 0)) := by
  match values, hne with
  | v :: vs, _ =>
    rw [show exponentialMovingAverage (v :: vs) alpha =
        v :: emaLoop alpha v vs by
      simp [exponentialMovingAverage, safeAlpha_eq h0 h1]]
    refine ⟨by simp [emaLoop_length], rfl, ?_⟩
    intro i hi hlt
    match i, hi with
    | (j + 1), _ =>
      have hj : j < vs.length := by simpa using hlt
      simpa using emaLoop_getD vs alpha v j hj

/-- Witness for C8: the recurrence applied to the concrete series
`[1, 3]` with α = 0.5. -/
theorem ema_recurrence_witness :
    ((0 : ℚ) ≤ 0.5 ∧ (0.5 : ℚ) ≤ 1 ∧ ([1, 3] : List ℚ) ≠ []) ∧
    (exponentialMovingAverage [1, 3] 0.5).length = 2 ∧
    (exponentialMovingAverage [1, 3] 0.5).getD 1 0 =
      0.5 * 3 + (1 - 0.5) * ((exponentialMovingAverage [1, 3] 0.5).getD 0 0) := by
  have h := ema_recurrence [1, 3] 0.5 (by decide) (by norm_num) (by norm_num)
  refine ⟨⟨by norm_num, by norm_num, by decide⟩, h.1, ?_⟩
  simpa using h.2.2 1 (by norm_num) (by norm_num)

/-- C9: with zero overall standard deviation the busy probability is the
degenerate three-way constant (0.65 above the mean, 0.2 when mean and
expectation are both zero, 0.45 otherwise); with nonzero deviation it is
the logistic `1/(1 + e^(-z))` of the z-score against the threshold
`mean + 0.5·std`; the clipped probability always lies in `[0, 1]`; and
the label is `BUSY` iff the probability is ≥ 0.6, `QUIET` iff ≤ 0.4, and
`NORMAL` exactly in between. -/
theorem busy_probability_label (expF : ℚ → ℚ) (m s x : ℚ) :
    (s = 0 → busyProbabilityRaw expF m s x =
       (if m < x then 0.65 else if m = 0 ∧ x = 0 then 0.2 else 0.45)) ∧
    (s ≠ 0 → busyProbabilityRaw expF m s x =
       1 / (1 + expF (-((x - (m + 0.5 * s)) / s)))) ∧
    (0 ≤ clip01 (busyProbabilityRaw expF m s x) ∧
       clip01 (busyProbabilityRaw expF m s x) ≤ 1) ∧
    (∀ p : ℚ, (labelOf p = BusyDayLabel.BUSY ↔ 0.6 ≤ p) ∧
       (labelOf p = BusyDayLabel.QUIET ↔ p ≤ 0.4) ∧
       (labelOf p = BusyDayLabel.NORMAL ↔ (0.4 < p ∧ p < 0.6))) := by
  refine ⟨?_, ?_, ?_, ?_⟩
  · intro hs
    unfold busyProbabilityRaw
    rw [if_pos hs]
  · intro hs
    unfold busyProbabilityRaw
    rw [if_neg hs, if_neg hs]
    have : m + s * 0.5 = m + 0.5 * s := by ring
    rw [this]
  · exact ⟨le_max_left 0 _, max_le (by norm_num) (min_le_left 1 _)⟩
  · intro p
    unfold labelOf
    refine ⟨?_, ?_, ?_⟩ <;> split_ifs with h1 h2 <;> simp_all <;>
      first
      | (constructor <;> linarith)
      | linarith

/-- A concrete stand-in for `Math.exp` used to instantiate C9's witness. -/
def expLinear : ℚ → ℚ := fun z => z

/-- Witness for C9: the logistic branch at mean 0, deviation 1,
expectation 1. -/
theorem busy_probability_label_witness :
    ((1 : ℚ) ≠ 0) ∧
    busyProbabilityRaw expLinear 0 1 1 =
      1 / (1 + expLinear (-(((1 : ℚ) - (0 + 0.5 * 1)) / 1))) := by
  exact ⟨one_ne_zero, (busy_probability_label expLinear 0 1 1).2.1 one_ne_zero⟩

/-- A concrete stand-in for `Math.sqrt`/`Math.exp` used in C10's concrete
instances. -/
def zeroFn : ℚ → ℚ := fun _ => 0

/-- The empty options object: every field takes the source default. -/
def noOptions : ForecastOptions :=
  { horizonDays := none, smoothWindow := none, smoothingFactor := none }

/-- Counterexample for C10 as stated: two calls on the identical booking
list, horizon and smoothing factor — made 1 ms apart — do not return
bit-identical output, because the `generated_at` field records each
call's own clock reading. -/
theorem forecast_repeated_calls_differ :
    generateBusyDayForecast zeroFn zeroFn [] noOptions 0 0 ≠
      generateBusyDayForecast zeroFn zeroFn [] noOptions 0 1 := by
  intro h
  have hts := congrArg BusyDayForecast.generated_at h
  simp [generateBusyDayForecast, generateCore] at hts

/-- C10 (amended): the local forecast is deterministic in everything the
caller supplies plus the calendar day of the clock — two calls with the
same bookings, options and transcendental primitives, whose first clock
reads fall on the same UTC day, agree on every forecast point and on the
`horizon_days`, `model`, `notes` and `usingFallback` fields; only
`generated_at` tracks the per-call clock. -/
theorem forecast_deterministic_same_day (sqrtF expF : ℚ → ℚ)
    (bookings : List FBooking) (options : ForecastOptions)
    (now now2 e e2 : ℕ) (h : now / msPerDay = now2 / msPerDay) :
    (generateBusyDayForecast sqrtF expF bookings options now e).points =
      (generateBusyDayForecast sqrtF expF bookings options now2 e2).points ∧
    (generateBusyDayForecast sqrtF expF bookings options now e).horizon_days =
      (generateBusyDayForecast sqrtF expF bookings options now2 e2).horizon_days ∧
    (generateBusyDayForecast sqrtF expF bookings options now e).model =
      (generateBusyDayForecast sqrtF expF bookings options now2 e2).model ∧
    (generateBusyDayForecast sqrtF expF bookings options now e).notes =
      (generateBusyDayForecast sqrtF expF bookings options now2 e2).notes ∧
    (generateBusyDayForecast sqrtF expF bookings options now e).usingFallback =
      (generateBusyDayForecast sqrtF expF bookings options now2 e2).usingFallback := by
  unfold generateBusyDayForecast
  rw [h]
  exact ⟨rfl, rfl, rfl, rfl, rfl⟩

/-- Witness for C10's amended determinism: calls 5 ms and 7 ms into day
zero agree on their points. -/
theorem forecast_deterministic_same_day_witness :
    (5 / msPerDay = 7 / msPerDay) ∧
    (generateBusyDayForecast zeroFn zeroFn [] noOptions 5 11).points =
      (generateBusyDayForecast zeroFn zeroFn [] noOptions 7 13).points := by
  exact ⟨by decide,
    (forecast_deterministic_same_day zeroFn zeroFn [] noOptions 5 7 11 13 (by decide)).1⟩

end Forecast

namespace Booking

/-- A finished (`SUCCESS`) stored row, used to exercise the transition
endpoints from a terminal state. -/
def rowDone : Row :=
  { id := 1, kind := Kind.FACILITY, resource_id := 5, start_dt := 1000, end_dt := 2000,
    quantity := some 1, status := Status.SUCCESS,
    started_at := some 10, ended_at := some 20, canceled_at := none,
    updated_at := 20 }

/-- A fresh (`REQUEST`) stored row. -/
def rowReq : Row :=
  { id := 1, kind := Kind.FACILITY, resource_id := 5, start_dt := 1000, end_dt := 2000,
    quantity := some 1, status := Status.REQUEST,
    started_at := none, ended_at := none, canceled_at := none,
    updated_at := 0 }

/-- C2: the claim asserts that `start` succeeds only from `REQUEST`,
`finish` only from `ONGOING`, `cancel` only from `REQUEST`/`ONGOING`, and
that every other (state, operation) pair fails with `InvalidTransition`
leaving the stored status unchanged.  The live transition endpoints have
no status precondition at all: on a booking already in the terminal state
`SUCCESS`, `start` succeeds and rewrites the row to `ONGOING`, `finish`
succeeds from `REQUEST`, and `cancel` succeeds from `SUCCESS` — and no
`InvalidTransition` error exists in the endpoints' error surface. -/
theorem transition_endpoints_ignore_state :
    startEndpoint [rowDone] 1 777 =
      Except.ok
        ({ rowDone with status := Status.ONGOING, started_at := some 777, updated_at := 777 },
         [{ rowDone with status := Status.ONGOING, started_at := some 777, updated_at := 777 }]) ∧
    finishEndpoint [rowReq] 1 777 =
      Except.ok
        ({ rowReq with status := Status.SUCCESS, ended_at := some 777, updated_at := 777 },
         [{ rowReq with status := Status.SUCCESS, ended_at := some 777, updated_at := 777 }]) ∧
    cancelEndpoint [rowDone] 1 777 =
      Except.ok
        ({ rowDone with status := Status.CANCEL, canceled_at := some 777, updated_at := 777 },
         [{ rowDone with status := Status.CANCEL, canceled_at := some 777, updated_at := 777 }]) := by
  refine ⟨?_, ?_, ?_⟩ <;> rfl

/-- C6: the claim asserts that a second `start` on the same booking fails
with `InvalidTransition` and leaves every stored field (including
`startedAt`) unchanged.  In the live backend the second call succeeds
again and overwrites `started_at` (and `updated_at`) with the new clock
value: starting `rowReq` at time 100 and then again at time 200 yields a
second success whose `started_at` moved from `some 100` to `some 200`. -/
theorem second_start_overwrites_timestamp :
    startEndpoint [rowReq] 1 100 =
      Except.ok
        ({ rowReq with status := Status.ONGOING, started_at := some 100, updated_at := 100 },
         [{ rowReq with status := Status.ONGOING, started_at := some 100, updated_at := 100 }]) ∧
    startEndpoint
        [{ rowReq with status := Status.ONGOING, started_at := some 100, updated_at := 100 }] 1 200 =
      Except.ok
        ({ rowReq with status := Status.ONGOING, started_at := some 200, updated_at := 200 },
         [{ rowReq with status := Status.ONGOING, started_at := some 200, updated_at := 200 }]) ∧
    (some 200 : Option ℕ) ≠ some 100 := by
  refine ⟨rfl, rfl, by decide⟩

/-- C3: the conflict test uses half-open interval semantics — the
overlap clause of `hasConflict` holds exactly when
`NOT (e1 ≤ s2 OR s1 ≥ e2)` — and consequently, submitting through the
real `createBooking` against a totalQuantity-1 resource holding `B1`
over `[10:00, 11:00)`, the overlapping submission `[10:30, 11:30)` fails
with `Conflict` while the adjacent submission `[11:00, 12:00)`, sharing
exactly one endpoint, is admitted. -/
theorem overlap_half_open :
    (∀ s1 e1 s2 e2 : ℕ, overlapClause s1 e1 s2 e2 = true ↔ ¬ (e1 ≤ s2 ∨ s1 ≥ e2)) ∧
    createBooking stateA reqB2 = Except.error SubmitError.Conflict ∧
    createBooking stateA reqB3 =
      Except.ok { stateA with bookings := [bookingB1, newBooking reqB3] } := by
  refine ⟨?_, ?_, ?_⟩
  · intro s1 e1 s2 e2
    simp [overlapClause, not_or]
  · rfl
  · rfl

end Booking
